import Mathlib

/-!
# HighFive `H5DataSet_misc.hpp`: shape inspector, data converters, `DataSet::read` / `DataSet::write`

A shallow embedding of `include/highfive/bits/H5DataSet_misc.hpp`.

* C++ types are terms of `CType`; the class templates `array_size` and `type_of_array` are
  functions on `CType`, one equation per (partial) specialization.
* The class template `data_converter` has a primary template and two specializations; the
  function `data_converter` returns which of the three a type selects, and the member functions
  are defined per selected template.
* The HDF5 library (`H5Dget_space`, `H5Dread`, `H5Dwrite`) is a parameter: an `Engine`.
* Undefined behaviour that a call can run into (`getDimensions()[0]` on an empty extent list,
  `std::string(const char*)` on a null pointer, a transfer larger than its buffer, an empty
  vector as the source of a write) ends the call in `Status.undefined`.
-/

namespace HighFive

/-! ## C++ types -/

/-- C++ types, as far as the specialization patterns of this header tell them apart:
`std::vector<T>`, `T*`, `T[N]`, `std::string`, and every other type (by name). -/
inductive CType where
  | scalar (name : String)
  | string
  | vector (T : CType)
  | pointer (T : CType)
  | array (T : CType) (N : Nat)
  deriving DecidableEq, Repr

namespace details

/-- Template `array_size<T>::value` (lines 22-33): the primary template gives 0, the specializations for
`std::vector<T>`, `T*` and `T[N]` give `1 + array_size<T>::value`. -/
def array_size : CType → Nat
  | .vector T => 1 + array_size T
  | .pointer T => 1 + array_size T
  | .array T _ => 1 + array_size T
  | _ => 0

/-- Template `type_of_array<T>::type` (lines 35-46): the primary template gives `T`, the specializations
for `std::vector<T>`, `T*` and `T[N]` give `type_of_array<T>::type`. -/
def type_of_array : CType → CType
  | .vector T => type_of_array T
  | .pointer T => type_of_array T
  | .array T _ => type_of_array T
  | T => T

/-- Specification side: unwrapping one level of "sequence of", "pointer to" or "fixed array of";
`none` for a type that is none of these. -/
def unwrap : CType → Option CType
  | .vector T => some T
  | .pointer T => some T
  | .array T _ => some T
  | _ => none

/-- Specification side: unwrapping exactly `n` levels. -/
def unwrapN : Nat → CType → Option CType
  | 0, T => some T
  | n + 1, T => (unwrap T).bind (unwrapN n)

end details

/-! ## Values, buffers and the storage engine -/

/-- Type `std::string`: a sequence of char codes of any length; the code 0 (NUL) may occur in it. -/
abbrev CppString := List Nat

/-- Type `char*`: `none` is `NULL`, `some arr` points to the first char of the char array `arr`. -/
abbrev CharPtr := Option (List Nat)

/-- What a `void*` handed to the engine points to: contiguous elements of the atomic type, or
contiguous `char*` slots (variable-length strings). -/
inductive Buffer (α : Type) where
  | elems (cells : List α)
  | cptrs (slots : List CharPtr)
  deriving DecidableEq, Repr

/-- Class `DataSpace`, as this header consumes it: the results of `getNumberDimensions()` and
`getDimensions()`. -/
structure DataSpace where
  getNumberDimensions : Nat
  getDimensions : List Nat
  deriving DecidableEq, Repr

/-- The HDF5 library, a parameter of the embedding. `σ` is the state the dataset handle `_hid`
refers to, `α` the values of the atomic element type. `H5Dget_space` is `none` when the
returned identifier is negative. `H5Dread` returns its status, the data it transfers to the
start of the buffer it is given, and the state afterwards. `H5Dwrite` receives the memory
type and the memory at the buffer pointer and returns its status and the state afterwards. -/
structure Engine (σ α : Type) where
  H5Dget_space : σ → Option DataSpace
  H5Dread : σ → CType → Int × Buffer α × σ
  H5Dwrite : σ → CType → Buffer α → Int × σ

/-- Undefined behaviour of the C++ standard library or of a raw transfer. -/
inductive Fault where
  /-- Indexing `getDimensions()[0]` on an empty extent list. -/
  | dims_out_of_range
  /-- Writing from `&(vec[0])` of an empty `std::vector`: there is no first element to write
  from. -/
  | empty_vector
  /-- Constructing `std::string(p)` where `p` is `NULL` or points to an array without terminating NUL. -/
  | bad_c_string
  /-- The engine transfers more slots than the buffer holds. -/
  | buffer_overrun
  /-- The engine transfers slots of another representation than the element type of the buffer. -/
  | representation_mismatch
  deriving DecidableEq, Repr

/-- Exceptions thrown by `read` / `write`, with their message. -/
inductive Exception where
  | DataSpaceException (msg : String)
  | DataSetException (msg : String)
  deriving DecidableEq, Repr

/-- How a call ends. -/
inductive Status where
  | ok
  | threw (e : Exception)
  | undefined (f : Fault)
  deriving DecidableEq, Repr

/-- Data-transfer calls into the engine, in the order they are made. -/
inductive Call (α : Type) where
  | H5Dread (mem_type : CType)
  | H5Dwrite (mem_type : CType) (buf : Buffer α)
  | H5Dvlen_reclaim (mem_type : CType) (space : DataSpace) (buf : List CharPtr)
  deriving DecidableEq, Repr

/-! ## Standard-library operations -/

/-- Member `std::vector::resize(n, x)`: keep the first `n` elements, append copies of `x` up to size
`n`. -/
def resize {β : Type} (v : List β) (n : Nat) (x : β) : List β :=
  v.take n ++ List.replicate (n - v.length) x

/-- Writing `src` over the start of `dst`, the rest of `dst` staying as it is (a raw transfer
into a buffer, or `std::transform` into an output range). -/
def overwrite {β : Type} (src dst : List β) : List β :=
  src ++ dst.drop src.length

/-- Member `str.c_str()`: the char array of `size() + 1` chars, the contents followed by a NUL. -/
def c_str (str : CppString) : List Nat := str ++ [0]

/-- The null-terminated string in a char array: the chars before the first NUL; `none` when the
array holds no NUL. -/
def c_string_at (arr : List Nat) : Option CppString :=
  if 0 ∈ arr then some (arr.takeWhile (fun c => c != 0)) else none

/-- Constructor `std::string(p)` for `p : const char*`: the null-terminated string `p` points to; undefined
(`none`) for `NULL`. -/
def string_of_char_ptr (p : CharPtr) : Option CppString :=
  p.bind c_string_at

/-- The loop `for (i = 0; i < vec.size(); ++i) vec[i] = std::string(_c_vec[i]);` of
`process_result` (lines 113-115), `vec` having the size of `_c_vec`: elements are assigned in
order; the loop stops at the first slot for which `std::string(_c_vec[i])` is undefined, the
elements from there on staying as they were. -/
def assign_strings : List CharPtr → List CppString → List CppString × Option Fault
  | p :: ps, s :: vec =>
    match string_of_char_ptr p with
    | none => (s :: vec, some .bad_c_string)
    | some str => ((assign_strings ps vec).1.cons str, (assign_strings ps vec).2)
  | _, vec => (vec, none)

/-! ## Data converters -/

/-- The three `data_converter` class templates: the primary one (lines 49-62), the partial
specialization for `std::vector<T>` (lines 65-83) and the full specialization for
`std::vector<std::string>` (lines 86-127). -/
inductive ConverterKind where
  | generic
  | vector
  | string
  deriving DecidableEq, Repr

namespace details

/-- Which template `data_converter<T>` names: the full specialization for
`std::vector<std::string>`, else the partial specialization for any `std::vector<T>`, else the
primary template. -/
def data_converter : CType → ConverterKind
  | .vector .string => .string
  | .vector _ => .vector
  | _ => .generic

end details

/-- The container a `data_converter` of each kind is applied to, as a value: for the primary
template the contiguous cells of the object, for `std::vector<T>` its elements, for
`std::vector<std::string>` its strings. -/
def Container (α : Type) : ConverterKind → Type
  | .generic => List α
  | .vector => List α
  | .string => List CppString

/-- The pointer a converter returns: the container itself (`datamem`, primary template), the
address of the first element of the vector (`&(vec[0])`), or the address of the first slot of
the member `_c_vec` of the converter (`&_c_vec[0]`). -/
inductive Ptr : ConverterKind → Type where
  | datamem : Ptr .generic
  | vec_front : Ptr .vector
  | c_vec_front : Ptr .string
  deriving DecidableEq, Repr

/-- Data members of a converter object: `_space` (the two specializations) and `_c_vec` (the
string specialization; empty in a new converter). The primary template has no members and
ignores both. -/
structure Converter where
  _space : DataSpace
  _c_vec : List CharPtr
  deriving DecidableEq, Repr

/-- State after a member function of a converter: the members of the converter, the
container, and the returned pointer or the undefined behaviour that ended the function. -/
structure Step (α : Type) (k : ConverterKind) where
  converter : Converter
  array : Container α k
  ret : Except Fault (Ptr k)

/-- State after `process_result`: the container, the engine calls made, and the undefined
behaviour that ended the function, if any. -/
structure Processed (α : Type) (k : ConverterKind) where
  array : Container α k
  calls : List (Call α)
  fault : Option Fault

namespace details

/-- The constructors `data_converter(datamem, space)` (lines 51-53, 67-69, 88-90): `_space` is
bound to `space`, `_c_vec` starts empty. -/
def data_converter.new (space : DataSpace) : Converter :=
  { _space := space, _c_vec := [] }

/-- Member `transform_read` (lines 55, 71-74, 94-98). The two specializations resize the buffer
to the first extent and return the address of its first slot; at extent 0 that buffer is empty
and the pointer designates no slot, so that nothing can be transferred to it. -/
def data_converter.transform_read {α : Type} [Inhabited α] :
    (k : ConverterKind) → Converter → Container α k → Step α k
  | .generic, self, datamem => ⟨self, datamem, .ok .datamem⟩
  | .vector, self, vec =>
    match self._space.getDimensions[0]? with
    | none => ⟨self, vec, .error .dims_out_of_range⟩
    | some n => ⟨self, resize (vec : List α) n default, .ok .vec_front⟩
  | .string, self, vec =>
    match self._space.getDimensions[0]? with
    | none => ⟨self, vec, .error .dims_out_of_range⟩
    | some n => ⟨{ self with _c_vec := resize self._c_vec n none }, vec, .ok .c_vec_front⟩

/-- Member `char_converter` (lines 100-102): the pointer `str.c_str()`. -/
def data_converter.char_converter (str : CppString) : CharPtr :=
  some (c_str str)

/-- Member `transform_write` (lines 57, 76, 104-108). The vector specialization hands the
engine `&(vec[0])` as the source of the write; the sequence has to be non-empty, an empty one
having no first element to write from. The string specialization always has the one `NULL`
slot at the end of `_c_vec`. -/
def data_converter.transform_write {α : Type} :
    (k : ConverterKind) → Converter → Container α k → Step α k
  | .generic, self, datamem => ⟨self, datamem, .ok .datamem⟩
  | .vector, self, vec =>
    if (vec : List α).isEmpty then ⟨self, vec, .error .empty_vector⟩
    else ⟨self, vec, .ok .vec_front⟩
  | .string, self, vec =>
    let c_vec1 : List CharPtr := resize self._c_vec ((vec : List CppString).length + 1) none
    let c_vec2 : List CharPtr :=
      overwrite (List.map data_converter.char_converter vec) c_vec1
    let self1 : Converter := { self with _c_vec := c_vec2 }
    if c_vec2.isEmpty then ⟨self1, vec, .error .empty_vector⟩ else ⟨self1, vec, .ok .c_vec_front⟩

/-- The condition of the `if` at line 117: `_c_vec.empty() == false && _c_vec[0] != NULL`. -/
def data_converter.reclaim_guard (c_vec : List CharPtr) : Bool :=
  c_vec.isEmpty == false && c_vec.head?.join.isSome

/-- Member `process_result` (lines 59-61, 78-80, 110-122). In the string specialization the type
passed to `H5Dvlen_reclaim` is `AtomicType<std::string>` and the space is `_space`. -/
def data_converter.process_result {α : Type} :
    (k : ConverterKind) → Converter → Container α k → Processed α k
  | .generic, _, datamem => ⟨datamem, [], none⟩
  | .vector, _, vec => ⟨vec, [], none⟩
  | .string, self, vec =>
    let vec1 : List CppString := resize vec self._c_vec.length []
    let assigned := assign_strings self._c_vec vec1
    match assigned.2 with
    | some f => ⟨assigned.1, [], some f⟩
    | none =>
      if data_converter.reclaim_guard self._c_vec then
        ⟨assigned.1, [.H5Dvlen_reclaim .string self._space self._c_vec], none⟩
      else ⟨assigned.1, [], none⟩

end details

open details

/-- The memory the pointer of a converter designates, as the engine sees it in `H5Dwrite`. -/
def Ptr.load {α : Type} : {k : ConverterKind} → Ptr k → Converter → Container α k → Buffer α
  | _, .datamem, _, array => .elems array
  | _, .vec_front, _, array => .elems array
  | _, .c_vec_front, self, _ => .cptrs self._c_vec

/-- The effect of `H5Dread` transferring `data` to the memory the pointer of a converter
designates: the data overwrite the start of that memory; more data than the memory holds, or
data of the other representation, is undefined behaviour. -/
def Ptr.store {α : Type} : {k : ConverterKind} → Ptr k → Converter → Container α k → Buffer α →
    Except Fault (Converter × Container α k)
  | _, .datamem, self, array, .elems xs =>
    if xs.length ≤ (array : List α).length then .ok (self, overwrite xs array)
    else .error .buffer_overrun
  | _, .vec_front, self, array, .elems xs =>
    if xs.length ≤ (array : List α).length then .ok (self, overwrite xs array)
    else .error .buffer_overrun
  | _, .c_vec_front, self, array, .cptrs ps =>
    if ps.length ≤ self._c_vec.length then
      .ok ({ self with _c_vec := overwrite ps self._c_vec }, array)
    else .error .buffer_overrun
  | _, .datamem, _, _, .cptrs _ => .error .representation_mismatch
  | _, .vec_front, _, _, .cptrs _ => .error .representation_mismatch
  | _, .c_vec_front, _, _, .elems _ => .error .representation_mismatch

/-! ## `DataSet::read` and `DataSet::write` -/

/-- Result of `DataSet::read` / `DataSet::write`: how the call ended, the container of the caller
and the engine state afterwards, and the data-transfer calls made into the engine. -/
structure Outcome (σ α : Type) (k : ConverterKind) where
  status : Status
  array : Container α k
  engine : σ
  calls : List (Call α)

/-- Message of the exception thrown at line 163. -/
def read_mismatch_message (dim_dataset dim_array : Nat) : String :=
  "Impossible to read DataSet of dimensions " ++ toString dim_dataset ++
    " into arrays of dimensions " ++ toString dim_array

/-- Message of the exception thrown at line 190. -/
def write_mismatch_message (dim_buffer dim_dataset : Nat) : String :=
  "Impossible to write buffer of dimensions " ++ toString dim_buffer ++
    " into dataset of dimensions " ++ toString dim_dataset

/-- Modelled from the spec: `HDF5ErrMapper::ToException<DataSetException>(prefix)` is not in this
header; the failure it reports is surfaced to the caller as an exception that aborts the call.
The message is modelled by its prefix. -/
def HDF5ErrMapper.ToException (pre : String) : Exception :=
  .DataSetException pre

/-- Member `DataSet::read<T>(T & array)` (lines 155-179). -/
def DataSet.read {σ α : Type} [Inhabited α] (E : Engine σ α) (T : CType) (self : σ)
    (array : Container α (data_converter T)) : Outcome σ α (data_converter T) :=
  let dim_array := array_size T
  match E.H5Dget_space self with
  | none =>
    ⟨.threw (HDF5ErrMapper.ToException "Unable to get DataSpace out of DataSet"), array, self, []⟩
  | some space =>
    let dim_dataset := space.getNumberDimensions
    if dim_array != dim_dataset then
      ⟨.threw (.DataSpaceException (read_mismatch_message dim_dataset dim_array)), array, self, []⟩
    else
      let array_datatype := type_of_array T
      let converter := data_converter.new space
      let pre := data_converter.transform_read (data_converter T) converter array
      match pre.ret with
      | .error f => ⟨.undefined f, pre.array, self, []⟩
      | .ok ptr =>
        let res := E.H5Dread self array_datatype
        match ptr.store pre.converter pre.array res.2.1 with
        | .error f => ⟨.undefined f, pre.array, res.2.2, [.H5Dread array_datatype]⟩
        | .ok mem =>
          if res.1 < 0 then
            ⟨.threw (HDF5ErrMapper.ToException "Error during HDF5 Read: "), mem.2, res.2.2,
              [.H5Dread array_datatype]⟩
          else
            let post := data_converter.process_result (data_converter T) mem.1 mem.2
            match post.fault with
            | some f => ⟨.undefined f, post.array, res.2.2, .H5Dread array_datatype :: post.calls⟩
            | none => ⟨.ok, post.array, res.2.2, .H5Dread array_datatype :: post.calls⟩

/-- Member `DataSet::write<T>(T & buffer)` (lines 182-201). -/
def DataSet.write {σ α : Type} (E : Engine σ α) (T : CType) (self : σ)
    (buffer : Container α (data_converter T)) : Outcome σ α (data_converter T) :=
  let dim_buffer := array_size T
  match E.H5Dget_space self with
  | none =>
    ⟨.threw (HDF5ErrMapper.ToException "Unable to get DataSpace out of DataSet"), buffer, self, []⟩
  | some space =>
    let dim_dataset := space.getNumberDimensions
    if dim_buffer != dim_dataset then
      ⟨.threw (.DataSpaceException (write_mismatch_message dim_buffer dim_dataset)), buffer, self,
        []⟩
    else
      let array_datatype := type_of_array T
      let converter := data_converter.new space
      let pre := data_converter.transform_write (data_converter T) converter buffer
      match pre.ret with
      | .error f => ⟨.undefined f, pre.array, self, []⟩
      | .ok ptr =>
        let buf := ptr.load pre.converter pre.array
        let res := E.H5Dwrite self array_datatype buf
        if res.1 < 0 then
          ⟨.threw (HDF5ErrMapper.ToException "Error during HDF5 Write: "), pre.array, res.2,
            [.H5Dwrite array_datatype buf]⟩
        else ⟨.ok, pre.array, res.2, [.H5Dwrite array_datatype buf]⟩

/-! ## A reference engine -/

/-- State of a dataset of a storage engine that keeps what it is given: its shape, the elements
stored, and the strings stored. -/
structure Store (α : Type) where
  dims : List Nat
  elems : List α
  texts : List CppString
  deriving DecidableEq, Repr

/-- Number of elements of a dataset: the product of its extents. -/
def Store.count {α : Type} (s : Store α) : Nat :=
  s.dims.foldl (fun a b => a * b) 1

/-- The null-terminated strings the slots point to; `none` if a slot is `NULL` or points to an
array without NUL. -/
def strings_at : List CharPtr → Option (List CppString)
  | [] => some []
  | p :: ps =>
    match string_of_char_ptr p, strings_at ps with
    | some s, some ss => some (s :: ss)
    | _, _ => none

/-- An engine for `Store`. The shape query returns the rank and the extents of `dims`.
`H5Dwrite` stores the first `count` elements of the buffer, or the null-terminated strings the
first `count` slots point to, and fails when the buffer holds fewer or a slot holds no string.
`H5Dread` transfers the stored elements, or, for the memory type `std::string`, pointers to new
null-terminated copies of the stored strings. -/
def Store.engine (α : Type) : Engine (Store α) α where
  H5Dget_space := fun s => some ⟨s.dims.length, s.dims⟩
  H5Dread := fun s mem_type =>
    if mem_type = .string then (0, .cptrs (s.texts.map fun t => some (c_str t)), s)
    else (0, .elems s.elems, s)
  H5Dwrite := fun s _ buf =>
    match buf with
    | .elems cells =>
      if cells.length < s.count then (-1, s) else (0, { s with elems := cells.take s.count })
    | .cptrs slots =>
      if slots.length < s.count then (-1, s)
      else
        match strings_at (slots.take s.count) with
        | some ss => (0, { s with texts := ss })
        | none => (-1, s)

/-- An engine for a rank-1 text dataset of extent 2 that holds no string for its first element
and the string "x" for its second: `H5Dread` leaves the first slot of the buffer `NULL` and
points the second slot to a null-terminated copy of "x". -/
def unwritten_first_engine : Engine Unit Int where
  H5Dget_space := fun _ => some ⟨1, [2]⟩
  H5Dread := fun s _ => (0, .cptrs [none, some [120, 0]], s)
  H5Dwrite := fun s _ _ => (0, s)

/-! ## Shape inspector: theorems -/

theorem unwrapN_of_rank_zero (T U : CType) (h : array_size T = 0) :
    ∀ k, unwrapN k T = some U → U = T := by
  intro k hk
  cases k with
  | zero => simpa [unwrapN] using hk.symm
  | succ n => cases T <;> simp [unwrapN, unwrap, array_size] at hk h

theorem unwrapN_unique (T : CType) :
    ∀ k U, unwrapN k T = some U → array_size U = 0 → U = type_of_array T := by
  induction T with
  | scalar name =>
    intro k U hk _
    exact unwrapN_of_rank_zero (.scalar name) U rfl k hk
  | string =>
    intro k U hk _
    exact unwrapN_of_rank_zero .string U rfl k hk
  | vector T ih =>
    intro k U hk hU
    cases k with
    | zero =>
      simp [unwrapN] at hk
      subst hk
      simp [array_size] at hU
    | succ n => exact ih n U (by simpa [unwrapN, unwrap] using hk) hU
  | pointer T ih =>
    intro k U hk hU
    cases k with
    | zero =>
      simp [unwrapN] at hk
      subst hk
      simp [array_size] at hU
    | succ n => exact ih n U (by simpa [unwrapN, unwrap] using hk) hU
  | array T N ih =>
    intro k U hk hU
    cases k with
    | zero =>
      simp [unwrapN] at hk
      subst hk
      simp [array_size] at hU
    | succ n => exact ih n U (by simpa [unwrapN, unwrap] using hk) hU

theorem unwrapN_array_size (T : CType) :
    unwrapN (array_size T) T = some (type_of_array T) := by
  induction T with
  | scalar name => rfl
  | string => rfl
  | vector T ih => simpa [array_size, type_of_array, Nat.add_comm 1, unwrapN, unwrap] using ih
  | pointer T ih => simpa [array_size, type_of_array, Nat.add_comm 1, unwrapN, unwrap] using ih
  | array T N ih => simpa [array_size, type_of_array, Nat.add_comm 1, unwrapN, unwrap] using ih

theorem array_size_type_of_array (T : CType) : array_size (type_of_array T) = 0 := by
  induction T with
  | scalar name => rfl
  | string => rfl
  | vector T ih => simpa [type_of_array] using ih
  | pointer T ih => simpa [type_of_array] using ih
  | array T N ih => simpa [type_of_array] using ih

theorem type_of_array_of_rank_zero (T : CType) (h : array_size T = 0) : type_of_array T = T := by
  cases T <;> simp [array_size, type_of_array] at h ⊢

theorem unwrap_none_iff (T : CType) : unwrap T = none ↔ array_size T = 0 := by
  cases T <;> simp [unwrap, array_size]

/-- C6: `array_size<T>::value` is the nesting depth of `T`. For `std::vector<X>`, `X*` and
`X[N]` (any `N`) it is `1 + array_size<X>::value`; for a type that is none of these
(`std::string` included) it is 0; it does not depend on the bound `N`; and it is the number of
levels that can be unwrapped from `T` before a type that unwraps no further is reached. -/
theorem array_size_is_nesting_depth :
    (∀ X, array_size (.vector X) = 1 + array_size X) ∧
    (∀ X, array_size (.pointer X) = 1 + array_size X) ∧
    (∀ X N, array_size (.array X N) = 1 + array_size X) ∧
    (∀ name, array_size (.scalar name) = 0) ∧
    array_size .string = 0 ∧
    (∀ T, (unwrap T = none ↔ array_size T = 0)) ∧
    (∀ X N M, array_size (.array X N) = array_size (.array X M)) ∧
    (∀ T, ∃ U, unwrapN (array_size T) T = some U ∧ unwrap U = none) := by
  refine ⟨fun _ => rfl, fun _ => rfl, fun _ _ => rfl, fun _ => rfl, rfl, unwrap_none_iff,
    fun _ _ _ => rfl, fun T => ⟨type_of_array T, unwrapN_array_size T, ?_⟩⟩
  exact (unwrap_none_iff _).2 (array_size_type_of_array T)

/-- C7: `type_of_array<T>::type` is the unique innermost non-container type of `T`: it is
reached by unwrapping exactly `array_size<T>::value` levels, it has rank 0, no other rank-0
type is reachable by unwrapping `T`, `type_of_array` is idempotent, and
`type_of_array<T>::type` is `T` exactly when `array_size<T>::value` is 0. -/
theorem type_of_array_is_innermost (T : CType) :
    unwrapN (array_size T) T = some (type_of_array T) ∧
    array_size (type_of_array T) = 0 ∧
    (∀ k U, unwrapN k T = some U → array_size U = 0 →
      U = type_of_array T ∧ k = array_size T) ∧
    type_of_array (type_of_array T) = type_of_array T ∧
    (type_of_array T = T ↔ array_size T = 0) := by
  refine ⟨unwrapN_array_size T, array_size_type_of_array T, ?_, ?_, ?_⟩
  · intro k U hk hU
    refine ⟨unwrapN_unique T k U hk hU, ?_⟩
    induction T generalizing k with
    | scalar name => cases k <;> simp_all [unwrapN, unwrap, array_size]
    | string => cases k <;> simp_all [unwrapN, unwrap, array_size]
    | vector T ih =>
      cases k with
      | zero => simp [unwrapN] at hk; subst hk; simp [array_size] at hU
      | succ n =>
        have := ih n (by simpa [unwrapN, unwrap] using hk)
        simp [array_size]; omega
    | pointer T ih =>
      cases k with
      | zero => simp [unwrapN] at hk; subst hk; simp [array_size] at hU
      | succ n =>
        have := ih n (by simpa [unwrapN, unwrap] using hk)
        simp [array_size]; omega
    | array T N ih =>
      cases k with
      | zero => simp [unwrapN] at hk; subst hk; simp [array_size] at hU
      | succ n =>
        have := ih n (by simpa [unwrapN, unwrap] using hk)
        simp [array_size]; omega
  · exact type_of_array_of_rank_zero _ (array_size_type_of_array T)
  · constructor
    · intro h
      rw [← h]
      exact array_size_type_of_array T
    · exact type_of_array_of_rank_zero T

/-! ## Vectors and buffers: lemmas -/

theorem resize_length {β : Type} (v : List β) (n : Nat) (x : β) : (resize v n x).length = n := by
  simp only [resize, List.length_append, List.length_take, List.length_replicate]
  omega

theorem overwrite_length {β : Type} (src dst : List β) (h : src.length ≤ dst.length) :
    (overwrite src dst).length = dst.length := by
  simp only [overwrite, List.length_append, List.length_drop]
  omega

theorem overwrite_full {β : Type} (src dst : List β) (h : dst.length ≤ src.length) :
    overwrite src dst = src := by
  simp [overwrite, List.drop_eq_nil_of_le h]

theorem transform_write_string_buffer (s : List CppString) :
    overwrite (s.map data_converter.char_converter) (resize ([] : List CharPtr) (s.length + 1) none)
      = s.map data_converter.char_converter ++ [none] := by
  simp [overwrite, resize, List.drop_replicate]

/-! ## Rank validation -/

/-- C1: for every container type `T` and every dataset whose shape query succeeds, if
`array_size<T>::value` differs from the number of dimensions of the dataset then `read` and `write`
each throw `DataSpaceException` without any call to `H5Dread` / `H5Dwrite`, leaving the
container and the engine as they were; hence `read` / `write` end successfully only if the two
ranks are equal. -/
theorem rank_mismatch_throws {σ α : Type} [Inhabited α] (E : Engine σ α) (T : CType) (self : σ)
    (space : DataSpace) (array : Container α (data_converter T))
    (hs : E.H5Dget_space self = some space) :
    (array_size T ≠ space.getNumberDimensions →
      DataSet.read E T self array =
        ⟨.threw (.DataSpaceException
          (read_mismatch_message space.getNumberDimensions (array_size T))), array, self, []⟩ ∧
      DataSet.write E T self array =
        ⟨.threw (.DataSpaceException
          (write_mismatch_message (array_size T) space.getNumberDimensions)), array, self, []⟩) ∧
    ((DataSet.read E T self array).status = .ok → array_size T = space.getNumberDimensions) ∧
    ((DataSet.write E T self array).status = .ok → array_size T = space.getNumberDimensions) := by
  refine ⟨fun hne => ⟨?_, ?_⟩, ?_, ?_⟩
  · simp [DataSet.read, hs, hne]
  · simp [DataSet.write, hs, hne]
  · intro hok
    by_contra hne
    simp [DataSet.read, hs, hne] at hok
  · intro hok
    by_contra hne
    simp [DataSet.write, hs, hne] at hok

/-- C1, at the scenario of the specification: a dataset of shape `[2, 2]` read into, and written
from, a one-dimensional sequence. -/
theorem rank_mismatch_throws_witness :
    array_size (.vector (.scalar "int")) ≠ 2 ∧
    DataSet.read (Store.engine Int) (.vector (.scalar "int")) ⟨[2, 2], [1, 2, 3, 4], []⟩
        ([7] : List Int) =
      ⟨.threw (.DataSpaceException (read_mismatch_message 2 1)), ([7] : List Int),
        ⟨[2, 2], [1, 2, 3, 4], []⟩, []⟩ ∧
    DataSet.write (Store.engine Int) (.vector (.scalar "int")) ⟨[2, 2], [1, 2, 3, 4], []⟩
        ([7] : List Int) =
      ⟨.threw (.DataSpaceException (write_mismatch_message 1 2)), ([7] : List Int),
        ⟨[2, 2], [1, 2, 3, 4], []⟩, []⟩ :=
  ⟨by decide,
    (rank_mismatch_throws (Store.engine Int) (.vector (.scalar "int")) ⟨[2, 2], [1, 2, 3, 4], []⟩
      ⟨2, [2, 2]⟩ ([7] : List Int) rfl).1 (by decide)⟩

/-! ## Writing leaves the container as it is -/

theorem transform_write_array {α : Type} (k : ConverterKind) (conv : Converter)
    (c : Container α k) : (data_converter.transform_write k conv c).array = c := by
  cases k
  · rfl
  · simp only [data_converter.transform_write]
    split <;> rfl
  · simp only [data_converter.transform_write]
    split <;> rfl

/-- C5: `write` does not change the container of the caller. For each of the three converters and
every container value the container after `transform_write` is the container before it, and so
is the container after a whole `write`, however the call ends; the primary template and the
vector specialization leave the converter unchanged as well, the string specialization changes
only its own `_c_vec` (in a new converter, to the pointers `c_str()` of the elements followed
by one `NULL`). -/
theorem write_leaves_container {σ α : Type} :
    (∀ (k : ConverterKind) (conv : Converter) (c : Container α k),
      (data_converter.transform_write k conv c).array = c) ∧
    (∀ (conv : Converter) (c : Container α .generic),
      (data_converter.transform_write .generic conv c).converter = conv) ∧
    (∀ (conv : Converter) (c : Container α .vector),
      (data_converter.transform_write .vector conv c).converter = conv) ∧
    (∀ (conv : Converter) (c : Container α .string),
      (data_converter.transform_write .string conv c).converter._space = conv._space) ∧
    (∀ (space : DataSpace) (vec : List CppString),
      (data_converter.transform_write (α := α) .string (data_converter.new space)
        vec).converter._c_vec = vec.map data_converter.char_converter ++ [none]) ∧
    (∀ (E : Engine σ α) (T : CType) (self : σ) (buffer : Container α (data_converter T)),
      (DataSet.write E T self buffer).array = buffer) := by
  refine ⟨transform_write_array, fun _ _ => rfl, ?_, ?_, ?_, ?_⟩
  · intro conv c
    simp only [data_converter.transform_write]
    split <;> rfl
  · intro conv c
    simp only [data_converter.transform_write]
    split <;> rfl
  · intro space vec
    have hb := transform_write_string_buffer vec
    simp only [data_converter.transform_write, data_converter.new]
    split <;> exact hb
  · intro E T self buffer
    simp only [DataSet.write]
    split
    · rfl
    · split
      · rfl
      · split
        · exact transform_write_array _ _ _
        · split <;> exact transform_write_array _ _ _

/-! ## The steps of a `read` -/

/-- A `read` that ends successfully went through every step: the shape query succeeded, the
ranks agree, `transform_read` returned a pointer, the transfer fitted the buffer, `H5Dread`
reported success and `process_result` completed; the container is the one `process_result`
left. -/
theorem read_ok_inv {σ α : Type} [Inhabited α] (E : Engine σ α) (T : CType) (self : σ)
    (array : Container α (data_converter T))
    (hok : (DataSet.read E T self array).status = .ok) :
    ∃ space ptr mem,
      E.H5Dget_space self = some space ∧
      array_size T = space.getNumberDimensions ∧
      (data_converter.transform_read (data_converter T) (data_converter.new space) array).ret
        = .ok ptr ∧
      ptr.store
        (data_converter.transform_read (data_converter T) (data_converter.new space)
          array).converter
        (data_converter.transform_read (data_converter T) (data_converter.new space) array).array
        (E.H5Dread self (type_of_array T)).2.1 = .ok mem ∧
      ¬ (E.H5Dread self (type_of_array T)).1 < 0 ∧
      (data_converter.process_result (α := α) (data_converter T) mem.1 mem.2).fault = none ∧
      (DataSet.read E T self array).array =
        (data_converter.process_result (α := α) (data_converter T) mem.1 mem.2).array := by
  cases hs : E.H5Dget_space self with
  | none => simp [DataSet.read, hs] at hok
  | some space =>
    by_cases hr : array_size T = space.getNumberDimensions
    · cases hp : (data_converter.transform_read (data_converter T) (data_converter.new space)
          array).ret with
      | error f => simp [DataSet.read, hs, hr, hp] at hok
      | ok ptr =>
        cases hst : ptr.store
            (data_converter.transform_read (data_converter T) (data_converter.new space)
              array).converter
            (data_converter.transform_read (data_converter T) (data_converter.new space)
              array).array
            (E.H5Dread self (type_of_array T)).2.1 with
        | error f => simp [DataSet.read, hs, hr, hp, hst] at hok
        | ok mem =>
          by_cases hneg : (E.H5Dread self (type_of_array T)).1 < 0
          · simp [DataSet.read, hs, hr, hp, hst, hneg] at hok
          · cases hf : (data_converter.process_result (α := α) (data_converter T) mem.1
                mem.2).fault with
            | some f => simp [DataSet.read, hs, hr, hp, hst, hneg, hf] at hok
            | none =>
              refine ⟨space, ptr, mem, rfl, hr, hp, hst, hneg, hf, ?_⟩
              simp [DataSet.read, hs, hr, hp, hst, hneg, hf]
    · simp [DataSet.read, hs, hr] at hok

/-- A `read` all of whose steps succeed ends successfully with the container `process_result`
leaves, the engine state `H5Dread` leaves, and the calls `H5Dread` and those of
`process_result`. -/
theorem read_ok_of_steps {σ α : Type} [Inhabited α] (E : Engine σ α) (T : CType) (self : σ)
    (array : Container α (data_converter T)) (space : DataSpace)
    (ptr : Ptr (data_converter T)) (mem : Converter × Container α (data_converter T))
    (hs : E.H5Dget_space self = some space)
    (hr : array_size T = space.getNumberDimensions)
    (hp : (data_converter.transform_read (data_converter T) (data_converter.new space)
      array).ret = .ok ptr)
    (hst : ptr.store
      (data_converter.transform_read (data_converter T) (data_converter.new space)
        array).converter
      (data_converter.transform_read (data_converter T) (data_converter.new space) array).array
      (E.H5Dread self (type_of_array T)).2.1 = .ok mem)
    (hneg : ¬ (E.H5Dread self (type_of_array T)).1 < 0)
    (hf : (data_converter.process_result (α := α) (data_converter T) mem.1 mem.2).fault
      = none) :
    DataSet.read E T self array =
      ⟨.ok, (data_converter.process_result (α := α) (data_converter T) mem.1 mem.2).array,
        (E.H5Dread self (type_of_array T)).2.2,
        .H5Dread (type_of_array T) ::
          (data_converter.process_result (α := α) (data_converter T) mem.1 mem.2).calls⟩ := by
  simp [DataSet.read, hs, hr, hp, hst, hneg, hf]

/-! ## Reading resizes a one-dimensional sequence -/

theorem transform_read_vector_length {α : Type} [Inhabited α] (conv : Converter)
    (vec : List α) (N : Nat) (h : conv._space.getDimensions[0]? = some N) :
    List.length (α := α) (data_converter.transform_read .vector conv vec).array = N := by
  simp only [data_converter.transform_read, h]
  exact resize_length _ _ _

theorem store_vec_front_length {α : Type} (conv : Converter) (vec : List α) (data : Buffer α)
    (mem : Converter × Container α .vector)
    (h : Ptr.vec_front.store conv vec data = .ok mem) :
    List.length (α := α) mem.2 = vec.length := by
  cases data with
  | elems xs =>
    simp only [Ptr.store] at h
    split at h
    · rename_i hle
      cases h
      exact overwrite_length _ _ hle
    · cases h
  | cptrs ps => cases h

/-- C4: a successful `read` into a one-dimensional sequence of atomic values from a rank-1
dataset of extent `N` leaves the sequence with exactly `N` elements, whatever its size `M` was
before (`M ≠ N` included): `transform_read` of the vector specialization resizes the sequence
to the first extent. -/
theorem read_resizes_vector {σ α : Type} [Inhabited α] (E : Engine σ α) (name : String)
    (self : σ) (vec : List α) (N : Nat)
    (hs : E.H5Dget_space self = some ⟨1, [N]⟩)
    (hok : (DataSet.read E (.vector (.scalar name)) self vec).status = .ok) :
    List.length (α := α) (DataSet.read E (.vector (.scalar name)) self vec).array = N ∧
    List.length (α := α)
      (data_converter.transform_read .vector (data_converter.new ⟨1, [N]⟩) vec).array = N := by
  refine ⟨?_, transform_read_vector_length _ _ _ rfl⟩
  obtain ⟨space, ptr, mem, hs1, -, hp, hst, -, -, harr⟩ := read_ok_inv E (.vector (.scalar name)) self vec hok
  rw [hs] at hs1
  cases hs1
  rw [harr]
  cases ptr
  have h1 := store_vec_front_length _ _ _ _ hst
  have h2 := transform_read_vector_length (data_converter.new ⟨1, [N]⟩) vec N rfl
  exact h1.trans h2

/-- C4, at a sequence of one element read from a dataset of extent 3. -/
theorem read_resizes_vector_witness :
    List.length ([9] : List Int) ≠ 3 ∧
    List.length (α := Int)
      (DataSet.read (Store.engine Int) (.vector (.scalar "int")) ⟨[3], [10, 20, 30], []⟩
        ([9] : List Int)).array = 3 :=
  ⟨by decide,
    (read_resizes_vector (Store.engine Int) "int" ⟨[3], [10, 20, 30], []⟩ ([9] : List Int) 3
      rfl rfl).1⟩

/-! ## The first extent is in range -/

/-- A `read` that ends in undefined behaviour met it in `transform_read`, in the transfer, or in
`process_result`. -/
theorem read_undefined_inv {σ α : Type} [Inhabited α] (E : Engine σ α) (T : CType) (self : σ)
    (array : Container α (data_converter T)) (f : Fault)
    (hu : (DataSet.read E T self array).status = .undefined f) :
    ∃ space, E.H5Dget_space self = some space ∧
      array_size T = space.getNumberDimensions ∧
      ((data_converter.transform_read (data_converter T) (data_converter.new space) array).ret
          = .error f ∨
        (∃ ptr conv arr data, Ptr.store (α := α) (k := data_converter T) ptr conv arr data
          = .error f) ∨
        (∃ conv arr,
          (data_converter.process_result (α := α) (data_converter T) conv arr).fault
            = some f)) := by
  cases hs : E.H5Dget_space self with
  | none => simp [DataSet.read, hs] at hu
  | some space =>
    by_cases hr : array_size T = space.getNumberDimensions
    · refine ⟨space, rfl, hr, ?_⟩
      cases hp : (data_converter.transform_read (data_converter T) (data_converter.new space)
          array).ret with
      | error g =>
        simp [DataSet.read, hs, hr, hp] at hu
        exact Or.inl (by rw [hu])
      | ok ptr =>
        right
        cases hst : ptr.store
            (data_converter.transform_read (data_converter T) (data_converter.new space)
              array).converter
            (data_converter.transform_read (data_converter T) (data_converter.new space)
              array).array
            (E.H5Dread self (type_of_array T)).2.1 with
        | error g =>
          simp [DataSet.read, hs, hr, hp, hst] at hu
          exact Or.inl ⟨ptr, _, _, _, hu ▸ hst⟩
        | ok mem =>
          by_cases hneg : (E.H5Dread self (type_of_array T)).1 < 0
          · simp [DataSet.read, hs, hr, hp, hst, hneg] at hu
          · cases hf : (data_converter.process_result (α := α) (data_converter T) mem.1
                mem.2).fault with
            | some g =>
              simp [DataSet.read, hs, hr, hp, hst, hneg, hf] at hu
              exact Or.inr ⟨mem.1, mem.2, hu ▸ hf⟩
            | none => simp [DataSet.read, hs, hr, hp, hst, hneg, hf] at hu
    · simp [DataSet.read, hs, hr] at hu

theorem store_ne_dims_out_of_range {α : Type} {k : ConverterKind} (ptr : Ptr k)
    (conv : Converter) (arr : Container α k) (data : Buffer α) :
    ptr.store conv arr data ≠ .error .dims_out_of_range := by
  cases ptr <;> cases data <;> simp only [Ptr.store] <;> (try split) <;> simp

theorem assign_strings_fault (ps : List CharPtr) :
    ∀ (vec : List CppString) (f : Fault), (assign_strings ps vec).2 = some f →
      f = .bad_c_string := by
  induction ps with
  | nil => intro vec f h; simp [assign_strings] at h
  | cons p ps ih =>
    intro vec f h
    cases vec with
    | nil => simp [assign_strings] at h
    | cons s vec =>
      simp only [assign_strings] at h
      split at h
      · simpa using h.symm
      · exact ih vec f h

theorem process_result_fault {α : Type} (k : ConverterKind) (conv : Converter)
    (arr : Container α k) (f : Fault)
    (h : (data_converter.process_result (α := α) k conv arr).fault = some f) :
    f = .bad_c_string := by
  cases k
  · simp [data_converter.process_result] at h
  · simp [data_converter.process_result] at h
  · simp only [data_converter.process_result] at h
    split at h
    · rename_i g hg
      simp at h
      subst h
      exact assign_strings_fault _ _ _ hg
    · split at h <;> simp at h

theorem transform_read_ret_of_dims {α : Type} [Inhabited α] (k : ConverterKind)
    (conv : Converter) (arr : Container α k) (n : Nat)
    (h : conv._space.getDimensions[0]? = some n) :
    (data_converter.transform_read k conv arr).ret ≠ .error .dims_out_of_range := by
  cases k
  · simp [data_converter.transform_read]
  · simp [data_converter.transform_read, h]
  · simp [data_converter.transform_read, h]

/-- C10: when the shape query returns as many extents as the number of dimensions it reports,
and `read` is called on a one-dimensional dynamic sequence (`std::vector<U>` with `U` of rank 0,
atomic or `std::string`), then once the rank check has passed the access `getDimensions()[0]`
in `transform_read` is in range, and no `read` ends in the out-of-range fault of that access. -/
theorem read_first_extent_in_range {σ α : Type} [Inhabited α] (E : Engine σ α) (U : CType)
    (self : σ) (space : DataSpace) (array : Container α (data_converter (.vector U)))
    (hU : array_size U = 0)
    (hs : E.H5Dget_space self = some space)
    (hlen : space.getDimensions.length = space.getNumberDimensions) :
    (array_size (.vector U) = space.getNumberDimensions →
      (space.getDimensions[0]?).isSome = true ∧
      (data_converter.transform_read (data_converter (.vector U)) (data_converter.new space)
        array).ret ≠ .error .dims_out_of_range) ∧
    (DataSet.read E (.vector U) self array).status ≠ .undefined .dims_out_of_range := by
  have key : array_size (.vector U) = space.getNumberDimensions →
      ∃ n, (data_converter.new space)._space.getDimensions[0]? = some n := by
    intro hr
    simp only [array_size, hU] at hr
    cases hd : space.getDimensions with
    | nil => rw [hd] at hlen; simp at hlen; omega
    | cons d ds => exact ⟨d, by simp [data_converter.new, hd]⟩
  refine ⟨fun hr => ?_, ?_⟩
  · obtain ⟨n, hn⟩ := key hr
    refine ⟨?_, transform_read_ret_of_dims _ _ _ n hn⟩
    simp only [data_converter.new] at hn
    simp [hn]
  · intro hu
    obtain ⟨space1, hs1, hr, h⟩ := read_undefined_inv E (.vector U) self array _ hu
    rw [hs] at hs1
    cases hs1
    rcases h with h | ⟨ptr, conv, arr, data, h⟩ | ⟨conv, arr, h⟩
    · obtain ⟨n, hn⟩ := key hr
      exact transform_read_ret_of_dims _ _ _ n hn h
    · exact store_ne_dims_out_of_range _ _ _ _ h
    · have := process_result_fault _ _ _ _ h
      cases this

/-- C10, at a text sequence read from a rank-1 dataset of extent 2. -/
theorem read_first_extent_in_range_witness :
    (([2] : List Nat)[0]?).isSome = true ∧
    (DataSet.read (Store.engine Int) (.vector .string) ⟨[2], [], [[97], [98]]⟩
      ([] : List CppString)).status ≠ .undefined .dims_out_of_range :=
  ⟨((read_first_extent_in_range (Store.engine Int) .string ⟨[2], [], [[97], [98]]⟩ ⟨1, [2]⟩
      ([] : List CppString) rfl rfl rfl).1 rfl).1,
    (read_first_extent_in_range (Store.engine Int) .string ⟨[2], [], [[97], [98]]⟩ ⟨1, [2]⟩
      ([] : List CppString) rfl rfl rfl).2⟩

/-! ## Round trip of a sequence of atomic values -/

theorem write_vector_nonempty {σ α : Type} (E : Engine σ α) (name : String) (self : σ)
    (v : List α) (N : Nat) (hv : v ≠ [])
    (hs : E.H5Dget_space self = some ⟨1, [N]⟩)
    (hw : 0 ≤ (E.H5Dwrite self (.scalar name) (.elems v)).1) :
    DataSet.write E (.vector (.scalar name)) self v =
      ⟨.ok, v, (E.H5Dwrite self (.scalar name) (.elems v)).2,
        [.H5Dwrite (.scalar name) (.elems v)]⟩ := by
  cases v with
  | nil => exact absurd rfl hv
  | cons x xs =>
    simp [DataSet.write, hs, array_size, data_converter, data_converter.transform_write,
      data_converter.new, Ptr.load, type_of_array, not_lt.2 hw]

theorem read_vector_eq {σ α : Type} [Inhabited α] (E : Engine σ α) (name : String) (self : σ)
    (w xs : List α) (N : Nat) (hxs : xs.length = N)
    (hs : E.H5Dget_space self = some ⟨1, [N]⟩)
    (hr : 0 ≤ (E.H5Dread self (.scalar name)).1)
    (hrd : (E.H5Dread self (.scalar name)).2.1 = .elems xs) :
    DataSet.read E (.vector (.scalar name)) self w =
      ⟨.ok, xs, (E.H5Dread self (.scalar name)).2.2, [.H5Dread (.scalar name)]⟩ := by
  have hlen : xs.length ≤ (resize w N (default : α)).length := by
    rw [resize_length]; omega
  have hfull : overwrite xs (resize w N (default : α)) = xs :=
    overwrite_full _ _ (by rw [resize_length]; omega)
  simp [DataSet.read, hs, array_size, data_converter, data_converter.transform_read,
    data_converter.new, type_of_array, hrd, Ptr.store, data_converter.process_result,
    hlen, hfull, not_lt.2 hr]

/-- C2: for every `N ≥ 1` and every sequence `v` of `N` atomic values, against a rank-1 dataset
of extent `N` whose engine accepts the `N` elements handed to `H5Dwrite` and transfers them
back in `H5Dread`, `write(v)` followed by `read(w)` into an empty sequence `w` succeeds and
leaves `w` equal to `v`. -/
theorem roundtrip_atomic_sequence {σ α : Type} [Inhabited α] (E : Engine σ α) (name : String)
    (self : σ) (v : List α) (N : Nat)
    (hN : 1 ≤ N) (hv : v.length = N)
    (hs : E.H5Dget_space self = some ⟨1, [N]⟩)
    (hw : 0 ≤ (E.H5Dwrite self (.scalar name) (.elems v)).1)
    (hs1 : E.H5Dget_space (E.H5Dwrite self (.scalar name) (.elems v)).2 = some ⟨1, [N]⟩)
    (hr : 0 ≤ (E.H5Dread (E.H5Dwrite self (.scalar name) (.elems v)).2 (.scalar name)).1)
    (hrd : (E.H5Dread (E.H5Dwrite self (.scalar name) (.elems v)).2 (.scalar name)).2.1
      = .elems v) :
    (DataSet.write E (.vector (.scalar name)) self v).status = .ok ∧
    (DataSet.read E (.vector (.scalar name))
      (DataSet.write E (.vector (.scalar name)) self v).engine ([] : List α)).status = .ok ∧
    (DataSet.read E (.vector (.scalar name))
      (DataSet.write E (.vector (.scalar name)) self v).engine ([] : List α)).array = v := by
  have hne : v ≠ [] := by
    intro h
    rw [h] at hv
    simp at hv
    omega
  rw [write_vector_nonempty E name self v N hne hs hw]
  refine ⟨rfl, ?_⟩
  simp only
  rw [read_vector_eq E name _ [] v N hv hs1 hr hrd]
  exact ⟨rfl, rfl⟩

/-- C2, at the scenario of the specification: shape `[3]`, the integers 10, 20, 30. -/
theorem roundtrip_atomic_sequence_witness :
    (DataSet.write (Store.engine Int) (.vector (.scalar "int")) ⟨[3], [], []⟩
      ([10, 20, 30] : List Int)).status = .ok ∧
    (DataSet.read (Store.engine Int) (.vector (.scalar "int"))
      (DataSet.write (Store.engine Int) (.vector (.scalar "int")) ⟨[3], [], []⟩
        ([10, 20, 30] : List Int)).engine ([] : List Int)).status = .ok ∧
    (DataSet.read (Store.engine Int) (.vector (.scalar "int"))
      (DataSet.write (Store.engine Int) (.vector (.scalar "int")) ⟨[3], [], []⟩
        ([10, 20, 30] : List Int)).engine ([] : List Int)).array = ([10, 20, 30] : List Int) :=
  roundtrip_atomic_sequence (Store.engine Int) "int" ⟨[3], [], []⟩ ([10, 20, 30] : List Int) 3
    (by decide) rfl rfl (by decide) rfl (by decide) rfl

/-! ## Round trip of a sequence of text values -/

theorem takeWhile_append_nul (s : List Nat) (h : 0 ∉ s) :
    (s ++ [0]).takeWhile (fun c => c != 0) = s := by
  induction s with
  | nil => rfl
  | cons c cs ih =>
    have hc : c ≠ 0 := fun hc => h (by simp [hc])
    have hcs : 0 ∉ cs := fun hcs => h (by simp [hcs])
    have hb : (c != 0) = true := by simpa using hc
    rw [List.cons_append, List.takeWhile_cons, hb]
    simp only [if_true, ih hcs]

theorem string_of_c_str (s : CppString) (h : 0 ∉ s) :
    string_of_char_ptr (some (c_str s)) = some s := by
  simp [string_of_char_ptr, c_string_at, c_str, takeWhile_append_nul s h]

theorem strings_at_char_converter (s : List CppString) (h : ∀ str ∈ s, 0 ∉ str) :
    strings_at (s.map data_converter.char_converter) = some s := by
  induction s with
  | nil => rfl
  | cons str rest ih =>
    have h1 : 0 ∉ str := h str (by simp)
    have h2 : ∀ t ∈ rest, 0 ∉ t := fun t ht => h t (by simp [ht])
    simp only [List.map, strings_at, data_converter.char_converter, string_of_c_str str h1]
    have := ih h2
    simp only [data_converter.char_converter] at this
    rw [this]

theorem assign_strings_copies (s : List CppString) (h : ∀ str ∈ s, 0 ∉ str) :
    ∀ vec : List CppString, vec.length = s.length →
      assign_strings (s.map fun t => some (c_str t)) vec = (s, none) := by
  induction s with
  | nil =>
    intro vec hvec
    cases vec with
    | nil => rfl
    | cons a l => simp at hvec
  | cons str rest ih =>
    intro vec hvec
    have h1 : 0 ∉ str := h str (by simp)
    have h2 : ∀ t ∈ rest, 0 ∉ t := fun t ht => h t (by simp [ht])
    cases vec with
    | nil => simp at hvec
    | cons a l =>
      have hl : l.length = rest.length := by simpa using hvec
      simp only [List.map, assign_strings, string_of_c_str str h1, ih h2 l hl, List.cons]

theorem write_string_eq {σ α : Type} (E : Engine σ α) (self : σ) (s : List CppString)
    (K : Nat) (hs : E.H5Dget_space self = some ⟨1, [K]⟩)
    (hw : 0 ≤ (E.H5Dwrite self .string
      (.cptrs (s.map data_converter.char_converter ++ [none]))).1) :
    DataSet.write E (.vector .string) self s =
      ⟨.ok, s,
        (E.H5Dwrite self .string (.cptrs (s.map data_converter.char_converter ++ [none]))).2,
        [.H5Dwrite .string (.cptrs (s.map data_converter.char_converter ++ [none]))]⟩ := by
  have hb := transform_write_string_buffer s
  simp [DataSet.write, hs, array_size, data_converter, data_converter.transform_write,
    data_converter.new, Ptr.load, type_of_array, hb, not_lt.2 hw]

theorem reclaim_guard_copies (s : List CppString) (hs : s ≠ []) :
    data_converter.reclaim_guard (s.map fun t => some (c_str t)) = true := by
  cases s with
  | nil => exact absurd rfl hs
  | cons t rest => rfl

theorem read_string_eq {σ α : Type} [Inhabited α] (E : Engine σ α) (self : σ)
    (w s : List CppString) (K : Nat) (hlen : s.length = K)
    (hnul : ∀ str ∈ s, 0 ∉ str)
    (hs : E.H5Dget_space self = some ⟨1, [K]⟩)
    (hr : 0 ≤ (E.H5Dread self .string).1)
    (hrd : (E.H5Dread self .string).2.1 = .cptrs (s.map fun t => some (c_str t))) :
    DataSet.read E (.vector .string) self w =
      ⟨.ok, s, (E.H5Dread self .string).2.2,
        .H5Dread .string ::
          if s = [] then []
          else [.H5Dvlen_reclaim .string ⟨1, [K]⟩ (s.map fun t => some (c_str t))]⟩ := by
  subst hlen
  have hfull : overwrite (s.map fun t => some (c_str t))
      (resize ([] : List CharPtr) s.length none) = s.map fun t => some (c_str t) :=
    overwrite_full _ _ (by rw [resize_length, List.length_map])
  have hassign := assign_strings_copies s hnul (resize w s.length []) (resize_length _ _ _)
  by_cases hne : s = []
  · subst hne
    simp [DataSet.read, hs, array_size, data_converter, data_converter.transform_read,
      data_converter.new, type_of_array, hrd, Ptr.store, data_converter.process_result,
      resize, overwrite, not_lt.2 hr, assign_strings, data_converter.reclaim_guard]
  · have hguard := reclaim_guard_copies s hne
    simp [DataSet.read, hs, array_size, data_converter, data_converter.transform_read,
      data_converter.new, type_of_array, hrd, Ptr.store, data_converter.process_result,
      resize_length, hfull, not_lt.2 hr, hassign, hguard, hne]

/-- C3, as amended: for every `K` and every sequence `s` of `K` strings none of which
contains a NUL char, against a rank-1 dataset of extent `K` whose engine accepts the write
buffer and on read fills `K` slots with copies of the null-terminated strings the first `K`
slots of the write buffer point to, `write(s)` followed by `read(r)` into an empty text
sequence `r` succeeds and leaves `r` equal to `s`. -/
theorem roundtrip_text_sequence {σ α : Type} [Inhabited α] (E : Engine σ α) (self : σ)
    (s : List CppString) (K : Nat)
    (hlen : s.length = K) (hnul : ∀ str ∈ s, 0 ∉ str)
    (hs : E.H5Dget_space self = some ⟨1, [K]⟩)
    (hw : 0 ≤ (E.H5Dwrite self .string
      (.cptrs (s.map data_converter.char_converter ++ [none]))).1)
    (hs1 : E.H5Dget_space (E.H5Dwrite self .string
      (.cptrs (s.map data_converter.char_converter ++ [none]))).2 = some ⟨1, [K]⟩)
    (hr : 0 ≤ (E.H5Dread (E.H5Dwrite self .string
      (.cptrs (s.map data_converter.char_converter ++ [none]))).2 .string).1)
    (hrd : ∀ ss, strings_at ((s.map data_converter.char_converter ++ [none]).take K) = some ss →
      (E.H5Dread (E.H5Dwrite self .string
        (.cptrs (s.map data_converter.char_converter ++ [none]))).2 .string).2.1
        = .cptrs (ss.map fun t => some (c_str t))) :
    (DataSet.write E (.vector .string) self s).status = .ok ∧
    (DataSet.read E (.vector .string)
      (DataSet.write E (.vector .string) self s).engine ([] : List CppString)).status = .ok ∧
    (DataSet.read E (.vector .string)
      (DataSet.write E (.vector .string) self s).engine ([] : List CppString)).array = s := by
  have htake : (s.map data_converter.char_converter ++ [none]).take K
      = s.map data_converter.char_converter := by
    rw [← hlen, ← List.length_map s data_converter.char_converter, List.take_left]
  have hdata := hrd s (by rw [htake]; exact strings_at_char_converter s hnul)
  rw [write_string_eq E self s K hs hw]
  refine ⟨rfl, ?_⟩
  simp only
  rw [read_string_eq E _ [] s K hlen hnul hs1 hr hdata]
  exact ⟨rfl, rfl⟩

/-- C3 as amended, at the scenario of the specification: shape `[2]`, the strings "alpha" and
"beta". -/
theorem roundtrip_text_sequence_witness :
    (DataSet.read (Store.engine Int) (.vector .string)
      (DataSet.write (Store.engine Int) (.vector .string) ⟨[2], [], []⟩
        ([[97, 108, 112, 104, 97], [98, 101, 116, 97]] : List CppString)).engine
      ([] : List CppString)).array
      = ([[97, 108, 112, 104, 97], [98, 101, 116, 97]] : List CppString) :=
  (roundtrip_text_sequence (Store.engine Int) ⟨[2], [], []⟩
    ([[97, 108, 112, 104, 97], [98, 101, 116, 97]] : List CppString) 2
    rfl (by decide) rfl (by decide) rfl (by decide)
    (fun ss h => by
      have h2 : ss = [[97, 108, 112, 104, 97], [98, 101, 116, 97]] := by
        have h3 : strings_at ((List.map data_converter.char_converter
            ([[97, 108, 112, 104, 97], [98, 101, 116, 97]] : List CppString) ++ [none]).take 2)
            = some [[97, 108, 112, 104, 97], [98, 101, 116, 97]] := by decide
        rw [h3] at h
        exact (Option.some.inj h).symm
      subst h2
      rfl)).2.2

/-- C3 as stated fails for a string with an embedded NUL: against the reference engine, which
stores the null-terminated strings the slots point to and on read fills the slots with copies
of them, writing the one-element sequence holding the three chars `a`, NUL, `b` to a dataset of
extent 1 and reading it back succeeds and yields the one-char string `a`. -/
theorem roundtrip_text_embedded_nul :
    (Store.engine Int).H5Dget_space ⟨[1], [], []⟩ = some ⟨1, [1]⟩ ∧
    (DataSet.write (Store.engine Int) (.vector .string) ⟨[1], [], []⟩
      ([[97, 0, 98]] : List CppString)).status = .ok ∧
    (DataSet.write (Store.engine Int) (.vector .string) ⟨[1], [], []⟩
      ([[97, 0, 98]] : List CppString)).engine = ⟨[1], [], [[97]]⟩ ∧
    strings_at ((List.map data_converter.char_converter ([[97, 0, 98]] : List CppString)
      ++ [none]).take 1) = some [[97]] ∧
    (DataSet.read (Store.engine Int) (.vector .string) ⟨[1], [], [[97]]⟩
      ([] : List CppString)).status = .ok ∧
    ([[97]] : List CppString) =
      (DataSet.read (Store.engine Int) (.vector .string)
        (DataSet.write (Store.engine Int) (.vector .string) ⟨[1], [], []⟩
          ([[97, 0, 98]] : List CppString)).engine ([] : List CppString)).array ∧
    ([[97, 0, 98]] : List CppString) ≠
      (DataSet.read (Store.engine Int) (.vector .string)
        (DataSet.write (Store.engine Int) (.vector .string) ⟨[1], [], []⟩
          ([[97, 0, 98]] : List CppString)).engine ([] : List CppString)).array := by
  refine ⟨rfl, by decide, by decide, by decide, by decide, by decide, by decide⟩

/-- Extent 0 on the reference engine: writing the empty text sequence and reading it back
succeeds with the empty sequence; the read buffer has no slot, and the only call of the read
is `H5Dread`, the guard of line 117 skipping `H5Dvlen_reclaim`. -/
theorem text_roundtrip_extent_zero :
    (DataSet.write (Store.engine Int) (.vector .string) ⟨[0], [], []⟩
      ([] : List CppString)).status = .ok ∧
    DataSet.read (Store.engine Int) (.vector .string)
      (DataSet.write (Store.engine Int) (.vector .string) ⟨[0], [], []⟩
        ([] : List CppString)).engine ([] : List CppString) =
      ⟨.ok, ([] : List CppString), ⟨[0], [], []⟩, [.H5Dread .string]⟩ := by
  exact ⟨by decide, rfl⟩

/-! ## Which converter a type selects -/

theorem data_converter_generic_iff (T : CType) :
    data_converter T = .generic ↔ ∀ X, T ≠ .vector X := by
  cases T with
  | vector X => cases X <;> simp [data_converter]
  | scalar name => simp [data_converter]
  | string => simp [data_converter]
  | pointer X => simp [data_converter]
  | array X N => simp [data_converter]

/-- C8, evaluated at `std::vector<std::vector<int>>`: the type has rank 2, yet `data_converter`
selects the partial specialization for `std::vector<T>`, whose `transform_read` resizes the
outer vector to the first extent (here from 0 to 3 elements) and returns the address of its
first element, and whose `transform_write` takes the address of the first element (undefined
for an empty vector). The primary template is selected exactly for the types that are no
`std::vector`, and it is the identity. -/
theorem nested_vector_selects_vector_converter :
    array_size (.vector (.vector (.scalar "int"))) = 2 ∧
    data_converter (.vector (.vector (.scalar "int"))) = .vector ∧
    (data_converter.transform_read (α := List Int)
      (data_converter (.vector (.vector (.scalar "int")))) (data_converter.new ⟨2, [3, 4]⟩)
      ([] : List (List Int))).ret = .ok .vec_front ∧
    ([[], [], []] : List (List Int)) =
      (data_converter.transform_read (α := List Int)
        (data_converter (.vector (.vector (.scalar "int")))) (data_converter.new ⟨2, [3, 4]⟩)
        ([] : List (List Int))).array ∧
    (data_converter.transform_write (α := List Int)
      (data_converter (.vector (.vector (.scalar "int")))) (data_converter.new ⟨2, [3, 4]⟩)
      ([] : List (List Int))).ret = .error .empty_vector ∧
    (∀ T, data_converter T = .generic ↔ ∀ X, T ≠ .vector X) ∧
    (∀ (conv : Converter) (datamem : Container (List Int) .generic),
      data_converter.transform_read .generic conv datamem = ⟨conv, datamem, .ok .datamem⟩ ∧
      data_converter.transform_write .generic conv datamem = ⟨conv, datamem, .ok .datamem⟩ ∧
      data_converter.process_result .generic conv datamem = ⟨datamem, [], none⟩) := by
  refine ⟨rfl, rfl, rfl, rfl, rfl, data_converter_generic_iff, fun _ _ => ⟨rfl, rfl, rfl⟩⟩

/-! ## Reclamation after a text read -/

theorem reclaim_guard_iff (c_vec : List CharPtr) :
    data_converter.reclaim_guard c_vec = true ↔ ∃ arr rest, c_vec = some arr :: rest := by
  cases c_vec with
  | nil => simp [data_converter.reclaim_guard]
  | cons p rest => cases p <;> simp [data_converter.reclaim_guard]

theorem assign_strings_completes_iff (ps : List CharPtr) :
    ∀ vec : List CppString, vec.length = ps.length →
      ((assign_strings ps vec).2 = none ↔ ∀ p ∈ ps, (string_of_char_ptr p).isSome = true) := by
  induction ps with
  | nil => intro vec _; simp [assign_strings]
  | cons p ps ih =>
    intro vec hvec
    cases vec with
    | nil => simp at hvec
    | cons s vec =>
      have hl : vec.length = ps.length := by simpa using hvec
      simp only [assign_strings]
      cases hp : string_of_char_ptr p with
      | none => simp [hp]
      | some str => simp [hp, ih vec hl]

/-- The calls of `process_result` of the string specialization: `H5Dvlen_reclaim` is called
(once, with the `std::string` type, the bound space and the intermediate buffer) exactly when
the reconstruction of the strings completes and the condition of line 117 holds; that
condition holds exactly when the buffer is non-empty and its first slot is non-null; the
reconstruction completes exactly when every slot points to a null-terminated string. -/
theorem process_result_string_calls {α : Type} (conv : Converter) (vec : List CppString) :
    ((data_converter.process_result (α := α) .string conv vec).calls =
      if (data_converter.process_result (α := α) .string conv vec).fault = none ∧
          data_converter.reclaim_guard conv._c_vec = true
      then [.H5Dvlen_reclaim .string conv._space conv._c_vec] else []) ∧
    (data_converter.reclaim_guard conv._c_vec = true ↔
      ∃ arr rest, conv._c_vec = some arr :: rest) ∧
    ((data_converter.process_result (α := α) .string conv vec).fault = none ↔
      ∀ p ∈ conv._c_vec, (string_of_char_ptr p).isSome = true) ∧
    (conv._c_vec = [] →
      (data_converter.process_result (α := α) .string conv vec).fault = none ∧
      (data_converter.process_result (α := α) .string conv vec).calls = []) ∧
    ((∀ p ∈ conv._c_vec, p = none) →
      (data_converter.process_result (α := α) .string conv vec).calls = []) := by
  have hiff := assign_strings_completes_iff conv._c_vec (resize vec conv._c_vec.length [])
    (resize_length _ _ _)
  have hcalls : (data_converter.process_result (α := α) .string conv vec).calls =
      if (data_converter.process_result (α := α) .string conv vec).fault = none ∧
          data_converter.reclaim_guard conv._c_vec = true
      then [.H5Dvlen_reclaim .string conv._space conv._c_vec] else [] := ?_
  refine ⟨hcalls, reclaim_guard_iff _, ?_, ?_, ?_⟩
  rotate_left 3
  · simp only [data_converter.process_result]
    obtain hf | ⟨f, hf⟩ := Option.eq_none_or_eq_some
      (assign_strings conv._c_vec (resize vec conv._c_vec.length [])).2
    · by_cases hg : data_converter.reclaim_guard conv._c_vec = true
      · simp [hf, hg]
      · simp [hf, hg]
    · simp [hf]
  · rw [← hiff]
    simp only [data_converter.process_result]
    obtain hf | ⟨f, hf⟩ := Option.eq_none_or_eq_some
      (assign_strings conv._c_vec (resize vec conv._c_vec.length [])).2
    · by_cases hg : data_converter.reclaim_guard conv._c_vec = true
      · simp [hf, hg]
      · simp [hf, hg]
    · simp [hf]
  · intro he
    simp [data_converter.process_result, he, assign_strings, data_converter.reclaim_guard]
  · intro hall
    rw [hcalls, if_neg]
    rintro ⟨-, hg⟩
    obtain ⟨arr, rest, he⟩ := (reclaim_guard_iff _).1 hg
    have := hall (some arr) (by simp [he])
    cases this

/-- C9, evaluated at the buffer `[NULL, "x"]`, which `H5Dread` leaves when the first element of
the dataset holds no string: a slot is populated, so the claim requires the reclamation call,
but the loop of lines 113-115 constructs `std::string` from the null first slot, which is
undefined, before the guard of line 117 is reached; `process_result` makes no call to
`H5Dvlen_reclaim`, and the whole `read` ends undefined after its one call `H5Dread`. Wherever
`process_result` completes, it calls `H5Dvlen_reclaim` exactly when some slot is non-null,
as the claim says, and for an empty buffer it completes and skips the call. -/
theorem reclaim_missed_behind_null_slot :
    (∃ p ∈ ([none, some [120, 0]] : List CharPtr), p ≠ none) ∧
    (data_converter.process_result (α := Int) .string ⟨⟨1, [2]⟩, [none, some [120, 0]]⟩
      ([] : List CppString)).fault = some .bad_c_string ∧
    (data_converter.process_result (α := Int) .string ⟨⟨1, [2]⟩, [none, some [120, 0]]⟩
      ([] : List CppString)).calls = [] ∧
    (DataSet.read unwritten_first_engine (.vector .string) ()
      ([] : List CppString)).status = .undefined .bad_c_string ∧
    (DataSet.read unwritten_first_engine (.vector .string) ()
      ([] : List CppString)).calls = [.H5Dread .string] ∧
    (∀ (conv : Converter) (vec : List CppString),
      (data_converter.process_result (α := Int) .string conv vec).fault = none →
      ((data_converter.process_result (α := Int) .string conv vec).calls
          = [.H5Dvlen_reclaim .string conv._space conv._c_vec] ↔
        ∃ p ∈ conv._c_vec, p ≠ none)) ∧
    (∀ (conv : Converter) (vec : List CppString), conv._c_vec = [] →
      (data_converter.process_result (α := Int) .string conv vec).fault = none ∧
      (data_converter.process_result (α := Int) .string conv vec).calls = []) := by
  refine ⟨⟨some [120, 0], by simp, by simp⟩, rfl, rfl, by decide, by decide, ?_, ?_⟩
  · intro conv vec hf
    obtain ⟨hcalls, hguard, hfault, -, -⟩ := process_result_string_calls (α := Int) conv vec
    have hall := hfault.1 hf
    constructor
    · intro hc
      by_cases hg : data_converter.reclaim_guard conv._c_vec = true
      · obtain ⟨arr, rest, he⟩ := hguard.1 hg
        exact ⟨some arr, by simp [he], by simp⟩
      · rw [hcalls, if_neg (fun h => hg h.2)] at hc
        cases hc
    · rintro ⟨p, hp, -⟩
      have hg : data_converter.reclaim_guard conv._c_vec = true := by
        cases hc : conv._c_vec with
        | nil => rw [hc] at hp; simp at hp
        | cons q rest =>
          have hq := hall q (by simp [hc])
          cases q with
          | none => simp [string_of_char_ptr] at hq
          | some arr => exact (reclaim_guard_iff _).2 ⟨arr, rest, rfl⟩
      rw [hcalls, if_pos ⟨hf, hg⟩]
  · intro conv vec he
    exact (process_result_string_calls (α := Int) conv vec).2.2.2.1 he

end HighFive
